import Mathlib

/-!
Shallow embedding of the Lilly Safety Hub application core (src/app.py).

Python strings are modelled as `List Char`; `None`-able values as `Option`;
the two record stores as Lean lists of row structures; the SQL queries as
list filters, counts and sorts; calendar dates as integer day numbers
(ISO-8601 date strings compare lexicographically exactly as their day
numbers compare, and `date(...)` arithmetic in the queries is day
arithmetic).
-/

namespace SafetyHub

/-- Characters allowed by `clean_token`'s class `[a-zA-Z0-9_-]`
(src/app.py line 177). -/
def isTokenChar (c : Char) : Bool :=
  c.isAlpha || c.isDigit || c = '_' || c = '-'

/-- Whitespace stripped by Python's `str.strip()` (ASCII whitespace; Python
also strips some further Unicode whitespace, all of it equally outside the
token class, so the theorems below are unaffected). -/
def isSpaceChar (c : Char) : Bool :=
  c = ' ' || c = '\t' || c = '\n' || c = '\r' || c = '\x0b' || c = '\x0c'

/-- Python `s.strip()`: drop leading and trailing whitespace. -/
def pyStrip (l : List Char) : List Char :=
  ((l.dropWhile isSpaceChar).reverse.dropWhile isSpaceChar).reverse

/-- Model of `clean_token` (src/app.py lines 176-177):
`re.sub(r"[^a-zA-Z0-9_-]+", "", (text or "").strip())`.
Substituting the empty string for every maximal run of characters outside
the class deletes exactly the characters outside the class. -/
def clean_token (text : List Char) : List Char :=
  (pyStrip text).filter isTokenChar

/-- Characters kept verbatim by `safe_filename`'s class `[a-zA-Z0-9_.-]`
(src/app.py lines 180-181). -/
def isFileChar (c : Char) : Bool :=
  c.isAlpha || c.isDigit || c = '_' || c = '.' || c = '-'

/-- Model of `re.sub` with pattern `[^a-zA-Z0-9_.-]+` and replacement `_`: each maximal run of characters
outside the class becomes a single underscore. The boolean records whether
the previous character was inside such a run. -/
def subRuns : Bool → List Char → List Char
  | _, [] => []
  | inRun, c :: t =>
    if isFileChar c then c :: subRuns false t
    else if inRun then subRuns true t
    else '_' :: subRuns true t

/-- Model of `safe_filename` (src/app.py lines 180-181):
`re.sub(r"[^a-zA-Z0-9_.-]+", "_", name or "file")`. -/
def safe_filename (name : List Char) : List Char :=
  subRuns false (if name = [] then ['f', 'i', 'l', 'e'] else name)

/-- One decimal digit (used by the strftime model below). -/
def digitChar : Nat → Char
  | 0 => '0' | 1 => '1' | 2 => '2' | 3 => '3' | 4 => '4'
  | 5 => '5' | 6 => '6' | 7 => '7' | 8 => '8' | 9 => '9'
  | _ => '0'

/-- Two-digit zero-padded field (`%m`, `%d`, `%H`, `%M`, `%S`). -/
def pad2 (n : Nat) : List Char :=
  [digitChar ((n / 10) % 10), digitChar (n % 10)]

/-- Four-digit zero-padded field (`%Y`). -/
def pad4 (n : Nat) : List Char :=
  [digitChar ((n / 1000) % 10), digitChar ((n / 100) % 10),
   digitChar ((n / 10) % 10), digitChar (n % 10)]

/-- Model of `now_ts` (src/app.py lines 184-185):
`datetime.now().strftime("%Y%m%d_%H%M%S")`, applied to the clock's
components. -/
def now_ts (year month day hour minute second : Nat) : List Char :=
  pad4 year ++ pad2 month ++ pad2 day ++ '_' :: (pad2 hour ++ pad2 minute ++ pad2 second)

/-- The storage pointer built by `upload_evidence` on the configured
Supabase branch (src/app.py line 203):
`f"{folder}/{now_ts()}_{uuid.uuid4().hex}_{safe_filename(uploaded_file.name)}"`,
with the time marker and the fresh uuid hex made explicit inputs. -/
def upload_name (folder ts uuidHex name : List Char) : List Char :=
  folder ++ '/' :: (ts ++ '_' :: (uuidHex ++ '_' :: safe_filename name))

/-- Model of `upload_evidence` (src/app.py lines 195-225) applied to a
present (truthy) file: when Supabase is configured it returns the
`upload_name` pointer of line 203; otherwise it takes the local fallback
of lines 219-225, whose returned pointer
`str(local_dir / f"{now_ts()}_{safe_filename(uploaded_file.name)}")`
discards the uuid-bearing `filename` of line 203 — no folder component and
no random component — and recomputes `now_ts()`; `ts` is the marker at the
time the returned pointer is built, `localUploads` the rendering of
`LOCAL_DATA_DIR / "uploads"`. -/
def upload_evidence (enabled : Bool) (localUploads folder ts uuidHex name : List Char) :
    List Char :=
  if enabled then upload_name folder ts uuidHex name
  else localUploads ++ '/' :: (ts ++ '_' :: safe_filename name)

section StableSort

variable {α : Type} {K : Type} [LinearOrder K]

/-- Stable insertion for a descending sort: the new element goes in front of
the first element whose key is not larger. Earlier list elements with an
equal key stay in front, which models a stable `ORDER BY key DESC`. -/
def insDesc (key : α → K) (a : α) : List α → List α
  | [] => [a]
  | b :: l => if key b ≤ key a then a :: b :: l else b :: insDesc key a l

/-- Stable insertion sort, descending by `key`: the deterministic reading of
`ORDER BY created_at DESC` with ties left in insertion order. -/
def sortDesc (key : α → K) : List α → List α
  | [] => []
  | a :: l => insDesc key a (sortDesc key l)

end StableSort

/-- Ascending sort of plain values (`ORDER BY field` ascending), realised as
the descending sort against the dual order. -/
def sortAsc {K : Type} [LinearOrder K] (l : List K) : List K :=
  sortDesc (OrderDual.toDual : K → Kᵒᵈ) l

/-- A row of `personnel_violations` (src/app.py lines 102-115): every TEXT
column is nullable and thus an `Option`; `created_at` is set by every
insert and kept plain (it is the sort key); `date_of_event` is an ISO date,
modelled by its day number. -/
structure PersonnelRow where
  created_at : List Char
  date_of_event : Int
  hard_hat_number : Option (List Char)
  company : Option (List Char)
  trade : Option (List Char)
  location : Option (List Char)
  violation_type : Option (List Char)
  severity : Option (List Char)
  description : Option (List Char)
  corrective_action : Option (List Char)
  evidence_path : Option (List Char)

/-- A row of `site_issues` (src/app.py lines 120-130). -/
structure SiteRow where
  created_at : List Char
  date_of_event : Int
  company : Option (List Char)
  building : Option (List Char)
  floor : Option (List Char)
  risk_level : Option (List Char)
  issue : Option (List Char)
  photo_path : Option (List Char)

/-- Constant from src/app.py line 25. -/
def REPEAT_THRESHOLD_TOTAL : Nat := 3

/-- Constant from src/app.py line 26. -/
def REPEAT_THRESHOLD_30D : Nat := 2

/-- Model of `count_personnel` (src/app.py lines 305-341): two `COUNT(*)` queries,
one over all rows whose `hard_hat_number` equals the token, one further
restricted by `date(date_of_event) >= date('now','-30 day')`, i.e. the
event day is at least the current day minus 30. -/
def count_personnel (store : List PersonnelRow) (hard_hat : List Char) (today : Int) :
    Nat × Nat :=
  (store.countP (fun r => decide (r.hard_hat_number = some hard_hat)),
   store.countP (fun r =>
     decide (r.hard_hat_number = some hard_hat) && decide (today - 30 ≤ r.date_of_event)))

/-- The escalation check at src/app.py line 570:
`total >= REPEAT_THRESHOLD_TOTAL or last30 >= REPEAT_THRESHOLD_30D`. -/
def repeat_flag (store : List PersonnelRow) (hard_hat : List Char) (today : Int) : Bool :=
  let c := count_personnel store hard_hat today
  decide (REPEAT_THRESHOLD_TOTAL ≤ c.1) || decide (REPEAT_THRESHOLD_30D ≤ c.2)

/-- Model of `fetch_hardhats` (src/app.py lines 343-354):
`SELECT DISTINCT hard_hat_number ... ORDER BY hard_hat_number` followed by
the Python comprehension keeping only truthy (non-NULL, non-empty) values.
Filtering the sorted deduplicated values commutes with sorting, so the
truthiness filter is applied before `dedup` and the ascending sort. -/
def fetch_hardhats (store : List PersonnelRow) : List (List Char) :=
  sortAsc (((store.filterMap (fun r => r.hard_hat_number)).filter
    (fun v => decide (v ≠ []))).dedup)

/-- Model of `fetch_buildings` (src/app.py lines 443-454), same shape over
`site_issues.building`. -/
def fetch_buildings (store : List SiteRow) : List (List Char) :=
  sortAsc (((store.filterMap (fun r => r.building)).filter
    (fun v => decide (v ≠ []))).dedup)

/-- Python truthiness of an optional string: `None` and `""` are falsy. -/
def truthy : Option (List Char) → Bool
  | none => false
  | some v => !v.isEmpty

/-- The literal `"(All)"` sentinel of the filter pickers. -/
def allSentinel : List Char := ['(', 'A', 'l', 'l', ')']

/-- Guard `filters.get(k) and filters[k] != "(All)"`: an equality filter is active
when its value is truthy and not the `"(All)"` sentinel. -/
def eqFilterActive (o : Option (List Char)) : Bool :=
  truthy o && decide (o ≠ some allSentinel)

/-- One equality condition of the WHERE clause: inactive filters impose no
constraint; an active one demands column equality (a NULL column never
matches). -/
def matchesEq (o : Option (List Char)) (field : Option (List Char)) : Bool :=
  if eqFilterActive o then decide (field = o) else true

/-- Prefix test used by the substring search below. -/
def startsWithChars : List Char → List Char → Bool
  | [], _ => true
  | _ :: _, [] => false
  | a :: pat, b :: l => a == b && startsWithChars pat l

/-- Test that `pat` occurs contiguously inside the subject (the semantics of
`column LIKE '%pat%'` on a non-NULL column). -/
def hasSub (pat : List Char) : List Char → Bool
  | [] => pat.isEmpty
  | c :: t => startsWithChars pat (c :: t) || hasSub pat t

/-- Semantics of `column LIKE '%pat%'`: a NULL column yields SQL NULL, which the WHERE
clause treats as not matching. -/
def likeOpt (pat : List Char) (field : Option (List Char)) : Bool :=
  match field with
  | none => false
  | some s => hasSub pat s

/-- The filter dictionary passed to `fetch_personnel` (src/app.py lines
625-632); `vtype` is the dict key `"type"`. -/
structure PersonnelFilters where
  hard_hat : Option (List Char)
  vtype : Option (List Char)
  severity : Option (List Char)
  keyword : Option (List Char)

/-- The WHERE clause built by `fetch_personnel` (src/app.py lines 357-376). -/
def matchesPersonnel (f : PersonnelFilters) (r : PersonnelRow) : Bool :=
  matchesEq f.hard_hat r.hard_hat_number &&
  matchesEq f.vtype r.violation_type &&
  matchesEq f.severity r.severity &&
  (match f.keyword with
   | none => true
   | some k =>
     if k.isEmpty then true
     else likeOpt k r.description || likeOpt k r.location ||
       likeOpt k r.company || likeOpt k r.trade)

/-- Model of `fetch_personnel` (src/app.py lines 357-389): WHERE clause then
`ORDER BY created_at DESC`, ties left in insertion order. -/
def fetch_personnel (f : PersonnelFilters) (store : List PersonnelRow) :
    List PersonnelRow :=
  sortDesc (fun r => r.created_at) (store.filter (matchesPersonnel f))

/-- The filter dictionary passed to `fetch_site` (src/app.py lines 724-732). -/
structure SiteFilters where
  building : Option (List Char)
  floor : Option (List Char)
  risk_level : Option (List Char)
  company_contains : Option (List Char)
  keyword : Option (List Char)

/-- The WHERE clause built by `fetch_site` (src/app.py lines 457-479). -/
def matchesSite (f : SiteFilters) (r : SiteRow) : Bool :=
  matchesEq f.building r.building &&
  matchesEq f.floor r.floor &&
  matchesEq f.risk_level r.risk_level &&
  (match f.company_contains with
   | none => true
   | some k => if k.isEmpty then true else likeOpt k r.company) &&
  (match f.keyword with
   | none => true
   | some k => if k.isEmpty then true else likeOpt k r.issue)

/-- Model of `fetch_site` (src/app.py lines 457-492). -/
def fetch_site (f : SiteFilters) (store : List SiteRow) : List SiteRow :=
  sortDesc (fun r => r.created_at) (store.filter (matchesSite f))

/-- Model of `make_signed_url` (src/app.py lines 228-243): `None` for an empty
pointer or an unconfigured storage collaborator; otherwise the optional
signed link the collaborator reports (any response without a `signedURL`
is reported as `none`). -/
def make_signed_url (enabled : Bool) (sign : List Char → Nat → Option (List Char))
    (storage_path : List Char) (seconds : Nat) : Option (List Char) :=
  if storage_path = [] ∨ enabled = false then none
  else sign storage_path seconds

/-- Validation failures of the personnel save handler, in check order
(src/app.py lines 573-577). -/
inductive PersonnelError
  | hardHatRequired
  | descriptionRequired
deriving DecidableEq

/-- Raw form state of the personnel tab (src/app.py lines 532-565):
free-text widgets give strings, the date picker a date, the uploader an
optional file whose name is recorded here. `violation_type` and `severity`
come from select boxes over fixed enumerations. -/
structure PersonnelForm where
  hh_raw : List Char
  date_event : Int
  company : List Char
  trade : List Char
  location : List Char
  violation_type : List Char
  severity : List Char
  description : List Char
  corrective_action : List Char
  evidence : Option (List Char)

/-- Python `s.strip() or None`: the trimmed text when non-empty, else
`None`. -/
def optText (s : List Char) : Option (List Char) :=
  if pyStrip s = [] then none else some (pyStrip s)

/-- Folder literal `people/` of src/app.py line 582. -/
def peopleFolder : List Char := ['p', 'e', 'o', 'p', 'l', 'e', '/']

/-- Model of the Save Personnel Violation handler (src/app.py lines
573-598): validate the normalized hard-hat token and the trimmed
description, upload evidence if attached, and build the row passed to
`insert_personnel`. An `error` outcome persists nothing. -/
def savePersonnel (now ts uuidHex : List Char) (f : PersonnelForm) :
    Except PersonnelError PersonnelRow :=
  let hh := clean_token f.hh_raw
  if hh = [] then .error .hardHatRequired
  else if pyStrip f.description = [] then .error .descriptionRequired
  else .ok {
    created_at := now
    date_of_event := f.date_event
    hard_hat_number := some hh
    company := optText f.company
    trade := optText f.trade
    location := optText f.location
    violation_type := some f.violation_type
    severity := some f.severity
    description := some (pyStrip f.description)
    corrective_action := optText f.corrective_action
    evidence_path := f.evidence.map (fun nm =>
      upload_name (peopleFolder ++ hh) ts uuidHex nm) }

/-- Validation failures of the site save handler, in check order
(src/app.py lines 671-679). -/
inductive SiteError
  | companyRequired
  | buildingRequired
  | floorRequired
  | issueRequired
deriving DecidableEq

/-- Raw form state of the site tab (src/app.py lines 658-669). -/
structure SiteForm where
  company : List Char
  building : List Char
  floor : List Char
  date_event : Int
  risk_level : List Char
  issue : List Char
  photo : Option (List Char)

/-- Folder literal `site/` of src/app.py line 686. -/
def siteFolder : List Char := ['s', 'i', 't', 'e', '/']

/-- Separator literal `/floor_` of src/app.py line 686. -/
def floorSep : List Char := ['/', 'f', 'l', 'o', 'o', 'r', '_']

/-- Model of the Save Site Safety Issue handler (src/app.py lines 671-699):
validate the four required trimmed fields in order, upload the photo if
attached, and build the row passed to `insert_site`. -/
def saveSite (now ts uuidHex : List Char) (f : SiteForm) :
    Except SiteError SiteRow :=
  if pyStrip f.company = [] then .error .companyRequired
  else if pyStrip f.building = [] then .error .buildingRequired
  else if pyStrip f.floor = [] then .error .floorRequired
  else if pyStrip f.issue = [] then .error .issueRequired
  else .ok {
    created_at := now
    date_of_event := f.date_event
    company := some (pyStrip f.company)
    building := some (pyStrip f.building)
    floor := some (pyStrip f.floor)
    risk_level := some f.risk_level
    issue := some (pyStrip f.issue)
    photo_path := f.photo.map (fun nm =>
      upload_name (siteFolder ++ safe_filename (pyStrip f.building) ++
        floorSep ++ safe_filename (pyStrip f.floor)) ts uuidHex nm) }

/-- A filter key that is absent (`None`) or empty (`""`): both are falsy in
the guards of `fetch_personnel` and `fetch_site` and impose no
constraint. -/
def inactiveKey (o : Option (List Char)) : Prop :=
  o = none ∨ o = some []

/-- What each personnel validation error asserts about the submission: the
named field really is missing (the hard-hat token is empty once
normalized; the description is empty once trimmed). -/
def personnelMissing (f : PersonnelForm) : PersonnelError → Prop
  | .hardHatRequired => clean_token f.hh_raw = []
  | .descriptionRequired => pyStrip f.description = []

/-- What each site validation error asserts about the submission. -/
def siteMissing (f : SiteForm) : SiteError → Prop
  | .companyRequired => pyStrip f.company = []
  | .buildingRequired => pyStrip f.building = []
  | .floorRequired => pyStrip f.floor = []
  | .issueRequired => pyStrip f.issue = []

/-- An optional free-text field persisted the way the save handlers do:
`None` when the raw text trims to empty, otherwise the trimmed text (so
never the empty string, and never untrimmed). -/
def persistedOpt (raw : List Char) (stored : Option (List Char)) : Prop :=
  (pyStrip raw = [] → stored = none) ∧
  (pyStrip raw ≠ [] → stored = some (pyStrip raw))

/-- Sample personnel row used to instantiate universally quantified
theorems. -/
def demoRowA : PersonnelRow where
  created_at := ['2', '0', '2', '5']
  date_of_event := 0
  hard_hat_number := some ['1', '1', '7']
  company := none
  trade := none
  location := none
  violation_type := some ['P', 'P', 'E']
  severity := some ['L', 'o', 'w']
  description := some ['x']
  corrective_action := none
  evidence_path := none

/-- Second sample personnel row, tied with `demoRowA` on `created_at`. -/
def demoRowB : PersonnelRow :=
  { demoRowA with hard_hat_number := some ['9'] }

/-- Sample site row. -/
def demoSiteRow : SiteRow where
  created_at := ['2', '0', '2', '4']
  date_of_event := 0
  company := some ['A']
  building := some ['B', '1']
  floor := some ['1']
  risk_level := some ['L', 'o', 'w']
  issue := some ['i']
  photo_path := none

/-- Sample personnel store with a `created_at` tie. -/
def demoPStore : List PersonnelRow := [demoRowA, demoRowB]

/-- Sample site store. -/
def demoSStore : List SiteRow := [demoSiteRow]

/-- A personnel submission with every field empty. -/
def demoEmptyPersonnelForm : PersonnelForm where
  hh_raw := []
  date_event := 0
  company := []
  trade := []
  location := []
  violation_type := []
  severity := []
  description := []
  corrective_action := []
  evidence := none

/-- A site submission with every field empty. -/
def demoEmptySiteForm : SiteForm where
  company := []
  building := []
  floor := []
  date_event := 0
  risk_level := []
  issue := []
  photo := none

/-- A valid personnel submission whose optional company trims to empty and
whose trade does not. -/
def demoPersonnelForm : PersonnelForm where
  hh_raw := ['1', '1', '7']
  date_event := 0
  company := [' ']
  trade := ['A', 'B']
  location := []
  violation_type := ['P', 'P', 'E']
  severity := ['L', 'o', 'w']
  description := [' ', 'd', ' ']
  corrective_action := []
  evidence := none

/-- The row the personnel save handler persists for
`demoPersonnelForm`. -/
def demoSavedPRow : PersonnelRow where
  created_at := []
  date_of_event := 0
  hard_hat_number := some ['1', '1', '7']
  company := none
  trade := some ['A', 'B']
  location := none
  violation_type := some ['P', 'P', 'E']
  severity := some ['L', 'o', 'w']
  description := some ['d']
  corrective_action := none
  evidence_path := none

/-- A valid site submission. -/
def demoSiteForm : SiteForm where
  company := [' ', 'A']
  building := ['B']
  floor := ['1']
  date_event := 0
  risk_level := ['L']
  issue := ['i']
  photo := none

/-- The row the site save handler persists for `demoSiteForm`. -/
def demoSavedSRow : SiteRow where
  created_at := []
  date_of_event := 0
  company := some ['A']
  building := some ['B']
  floor := some ['1']
  risk_level := some ['L']
  issue := some ['i']
  photo_path := none

/-- Dropped whitespace never satisfies the token-character predicate. -/
theorem isTokenChar_eq_false_of_isSpaceChar {c : Char} (h : isSpaceChar c = true) :
    isTokenChar c = false := by
  simp only [isSpaceChar, Bool.or_eq_true, decide_eq_true_eq] at h
  rcases h with ((((h | h) | h) | h) | h) | h <;> subst h <;> decide

/-- Filtering by `p` ignores a `dropWhile` by `q` when `q`-chars never
satisfy `p`. -/
theorem filter_dropWhile_eq_filter {p q : Char → Bool}
    (hpq : ∀ c, q c = true → p c = false) :
    ∀ l : List Char, (l.dropWhile q).filter p = l.filter p := by
  intro l
  induction l with
  | nil => rfl
  | cons c t ih =>
    by_cases hq : q c = true
    · rw [List.dropWhile_cons_of_pos hq, ih, List.filter_cons, hpq c hq]
      simp
    · rw [List.dropWhile_cons_of_neg hq]

/-- Filtering by the token class commutes past Python's `strip`. -/
theorem filter_pyStrip (l : List Char) :
    (pyStrip l).filter isTokenChar = l.filter isTokenChar := by
  unfold pyStrip
  rw [List.filter_reverse,
    filter_dropWhile_eq_filter (fun c hc => isTokenChar_eq_false_of_isSpaceChar hc),
    List.filter_reverse, List.reverse_reverse,
    filter_dropWhile_eq_filter (fun c hc => isTokenChar_eq_false_of_isSpaceChar hc)]

/-- Theorem: `clean_token` is exactly the in-order filter keeping the class. -/
theorem clean_token_eq_filter (l : List Char) :
    clean_token l = l.filter isTokenChar := by
  unfold clean_token; exact filter_pyStrip l

section StableSortFacts

variable {α : Type} {K : Type} [LinearOrder K]

theorem insDesc_perm (key : α → K) (a : α) (l : List α) :
    List.Perm (insDesc key a l) (a :: l) := by
  induction l with
  | nil => rfl
  | cons b t ih =>
    unfold insDesc
    by_cases h : key b ≤ key a
    · rw [if_pos h]
    · rw [if_neg h]
      exact ((ih.cons b).trans (List.Perm.swap a b t))

theorem sortDesc_perm (key : α → K) (l : List α) :
    List.Perm (sortDesc key l) l := by
  induction l with
  | nil => rfl
  | cons a t ih => exact (insDesc_perm key a (sortDesc key t)).trans (ih.cons a)

theorem insDesc_sorted (key : α → K) (a : α) {l : List α}
    (hl : List.Sorted (fun x y => key y ≤ key x) l) :
    List.Sorted (fun x y => key y ≤ key x) (insDesc key a l) := by
  induction l with
  | nil => simp [insDesc]
  | cons b t ih =>
    rw [List.sorted_cons] at hl
    unfold insDesc
    by_cases h : key b ≤ key a
    · rw [if_pos h, List.sorted_cons]
      refine ⟨?_, List.sorted_cons.mpr hl⟩
      intro z hz
      rcases List.mem_cons.mp hz with hz | hz
      · exact hz ▸ h
      · exact le_trans (hl.1 z hz) h
    · rw [if_neg h, List.sorted_cons]
      refine ⟨?_, ih hl.2⟩
      intro z hz
      rcases List.mem_cons.mp ((insDesc_perm key a t).mem_iff.mp hz) with hz | hz
      · exact hz ▸ le_of_lt (lt_of_not_le h)
      · exact hl.1 z hz

theorem sortDesc_sorted (key : α → K) (l : List α) :
    List.Sorted (fun x y => key y ≤ key x) (sortDesc key l) := by
  induction l with
  | nil => simp [sortDesc]
  | cons a t ih => exact insDesc_sorted key a ih

theorem insDesc_filter_key (key : α → K) (p : α → Bool) (k : K) (a : α)
    (hp : ∀ x, p x = true ↔ key x = k) {l : List α}
    (hl : List.Sorted (fun x y => key y ≤ key x) l) :
    (insDesc key a l).filter p = if key a = k then a :: l.filter p else l.filter p := by
  have hpval : ∀ x, p x = if key x = k then true else false := by
    intro x
    by_cases hx : key x = k
    · simp [hx, (hp x).mpr hx]
    · rw [if_neg hx]
      cases hpx : p x
      · rfl
      · exact absurd ((hp x).mp hpx) hx
  induction l with
  | nil =>
    by_cases h : key a = k <;> simp [insDesc, List.filter_cons, hpval a, h]
  | cons b t ih =>
    rw [List.sorted_cons] at hl
    unfold insDesc
    by_cases h : key b ≤ key a
    · rw [if_pos h]
      by_cases ha : key a = k <;> simp [List.filter_cons, hpval a, ha]
    · have hba : key a < key b := lt_of_not_le h
      rw [if_neg h]
      by_cases hb : key b = k
      · have ha : ¬ key a = k := fun hak => absurd (hak.trans hb.symm) (ne_of_lt hba)
        simp [List.filter_cons, hpval b, hb, ha, ih hl.2]
      · by_cases ha : key a = k <;> simp [List.filter_cons, hpval b, hb, ha, ih hl.2]

/-- Stability of `sortDesc`: the subsequence of elements sharing any one key
value is exactly the corresponding subsequence of the input, i.e. ties are
broken by insertion order. -/
theorem sortDesc_filter_key (key : α → K) (p : α → Bool) (k : K)
    (hp : ∀ x, p x = true ↔ key x = k) (l : List α) :
    (sortDesc key l).filter p = l.filter p := by
  induction l with
  | nil => rfl
  | cons a t ih =>
    show (insDesc key a (sortDesc key t)).filter p = _
    rw [insDesc_filter_key key p k a hp (sortDesc_sorted key t), ih, List.filter_cons]
    by_cases ha : key a = k
    · simp [ha, (hp a).mpr ha]
    · have hpa : p a = false := by
        cases hpa' : p a
        · rfl
        · exact absurd ((hp a).mp hpa') ha
      simp [ha, hpa]

end StableSortFacts

theorem sortAsc_perm {K : Type} [LinearOrder K] (l : List K) :
    List.Perm (sortAsc l) l :=
  sortDesc_perm _ l

theorem sortAsc_sorted {K : Type} [LinearOrder K] (l : List K) :
    List.Sorted (fun x y : K => x ≤ y) (sortAsc l) :=
  sortDesc_sorted (OrderDual.toDual : K → Kᵒᵈ) l

/-- C1: for every store, subject token and current day, the aggregator's
escalation flag is true if and only if the lifetime count of personnel
violation records for that token is at least 3, or the count of such
records within the trailing 30 days is at least 2 (the default
thresholds). -/
theorem C1_escalate_iff_thresholds (store : List PersonnelRow) (hard_hat : List Char)
    (today : Int) :
    repeat_flag store hard_hat today = true ↔
      3 ≤ (store.filter (fun r => decide (r.hard_hat_number = some hard_hat))).length ∨
      2 ≤ (store.filter (fun r => decide (r.hard_hat_number = some hard_hat ∧
            today - 30 ≤ r.date_of_event))).length := by
  simp [repeat_flag, count_personnel, REPEAT_THRESHOLD_TOTAL, REPEAT_THRESHOLD_30D,
    List.countP_eq_length_filter, Bool.decide_and]

/-- C2: for every store, subject token and current day, `count_personnel`
returns `total` equal to the number of stored personnel records whose
`hard_hat_number` equals the token, and `recent` equal to the number of
such records whose event day lies within the trailing 30 days of the
current day, boundary day included (day granularity: `today - 30 ≤ d`). -/
theorem C2_counts_characterised (store : List PersonnelRow) (hard_hat : List Char)
    (today : Int) :
    count_personnel store hard_hat today =
      ((store.filter (fun r => decide (r.hard_hat_number = some hard_hat))).length,
       (store.filter (fun r => decide (r.hard_hat_number = some hard_hat ∧
          today - 30 ≤ r.date_of_event))).length) := by
  simp [count_personnel, List.countP_eq_length_filter, Bool.decide_and]

/-- C3: `clean_token` keeps, in order, exactly the characters of the class
`[A-Za-z0-9_-]` and deletes every other character — it is the in-order
filter by the class — and consequently two visually different inputs can
normalize to the same token. -/
theorem C3_normalization_is_class_filter :
    (∀ l : List Char, clean_token l = l.filter isTokenChar) ∧
    (∃ a b : List Char, a ≠ b ∧ clean_token a = clean_token b) := by
  refine ⟨clean_token_eq_filter, [' ', 'A', '1'], ['A', '1'], by decide, by decide⟩

/-- C4: `clean_token` is idempotent: normalizing an already-normalized
token changes nothing. -/
theorem C4_normalization_idempotent (l : List Char) :
    clean_token (clean_token l) = clean_token l := by
  simp [clean_token_eq_filter, List.filter_filter]

/-- C9: with the storage collaborator configured, the evidence reference
resolver returns `none` exactly when the pointer is empty or the
collaborator reports no signed link, returns exactly the collaborator's
signed link otherwise, and returns `none` for an empty pointer whatever
the configuration; it is a total function into an `Option` with no error
detail. -/
theorem C9_resolver_optional_link (sign : List Char → Nat → Option (List Char))
    (path : List Char) (secs : Nat) :
    (make_signed_url true sign path secs = none ↔ path = [] ∨ sign path secs = none) ∧
    (∀ link, make_signed_url true sign path secs = some link ↔
      path ≠ [] ∧ sign path secs = some link) ∧
    (∀ enabled, make_signed_url enabled sign [] secs = none) ∧
    (∀ p, make_signed_url false sign p secs = none) := by
  refine ⟨?_, ?_, ?_, ?_⟩
  · by_cases hp : path = [] <;> simp [make_signed_url, hp]
  · intro link
    by_cases hp : path = [] <;> simp [make_signed_url, hp]
  · intro enabled; simp [make_signed_url]
  · intro p; simp [make_signed_url]

/-- C6: the distinct-value enumerations (`hard_hat_number` for personnel,
`building` for site issues) return, without duplicates and in ascending
order, exactly the non-null non-empty values of the field present in the
store. -/
theorem C6_distinct_values (pstore : List PersonnelRow) (sstore : List SiteRow) :
    ((fetch_hardhats pstore).Nodup ∧
     List.Sorted (fun a b : List Char => a ≤ b) (fetch_hardhats pstore) ∧
     ∀ v, v ∈ fetch_hardhats pstore ↔
       v ≠ [] ∧ some v ∈ pstore.map (fun r => r.hard_hat_number)) ∧
    ((fetch_buildings sstore).Nodup ∧
     List.Sorted (fun a b : List Char => a ≤ b) (fetch_buildings sstore) ∧
     ∀ v, v ∈ fetch_buildings sstore ↔
       v ≠ [] ∧ some v ∈ sstore.map (fun r => r.building)) := by
  refine ⟨⟨?_, ?_, ?_⟩, ⟨?_, ?_, ?_⟩⟩
  · exact (sortAsc_perm _).nodup_iff.mpr (List.nodup_dedup _)
  · exact sortAsc_sorted _
  · intro v
    simp only [fetch_hardhats, (sortAsc_perm _).mem_iff, List.mem_dedup, List.mem_filter,
      List.mem_filterMap, List.mem_map, decide_eq_true_eq]
    constructor
    · rintro ⟨⟨r, hr, hv⟩, hne⟩
      exact ⟨hne, r, hr, hv⟩
    · rintro ⟨hne, r, hr, hv⟩
      exact ⟨⟨r, hr, hv⟩, hne⟩
  · exact (sortAsc_perm _).nodup_iff.mpr (List.nodup_dedup _)
  · exact sortAsc_sorted _
  · intro v
    simp only [fetch_buildings, (sortAsc_perm _).mem_iff, List.mem_dedup, List.mem_filter,
      List.mem_filterMap, List.mem_map, decide_eq_true_eq]
    constructor
    · rintro ⟨⟨r, hr, hv⟩, hne⟩
      exact ⟨hne, r, hr, hv⟩
    · rintro ⟨hne, r, hr, hv⟩
      exact ⟨⟨r, hr, hv⟩, hne⟩

theorem eqFilterActive_of_inactive {o : Option (List Char)} (h : inactiveKey o) :
    eqFilterActive o = false := by
  rcases h with h | h <;> subst h <;> rfl

theorem matchesEq_of_inactive {o field : Option (List Char)} (h : inactiveKey o) :
    matchesEq o field = true := by
  simp [matchesEq, eqFilterActive_of_inactive h]

theorem matchesPersonnel_of_inactive {f : PersonnelFilters}
    (h1 : inactiveKey f.hard_hat) (h2 : inactiveKey f.vtype)
    (h3 : inactiveKey f.severity) (h4 : inactiveKey f.keyword) (r : PersonnelRow) :
    matchesPersonnel f r = true := by
  unfold matchesPersonnel
  rw [matchesEq_of_inactive h1, matchesEq_of_inactive h2, matchesEq_of_inactive h3]
  rcases h4 with h4 | h4 <;> rw [h4] <;> rfl

theorem matchesSite_of_inactive {f : SiteFilters}
    (h1 : inactiveKey f.building) (h2 : inactiveKey f.floor)
    (h3 : inactiveKey f.risk_level) (h4 : inactiveKey f.company_contains)
    (h5 : inactiveKey f.keyword) (r : SiteRow) :
    matchesSite f r = true := by
  unfold matchesSite
  rw [matchesEq_of_inactive h1, matchesEq_of_inactive h2, matchesEq_of_inactive h3]
  rcases h4 with h4 | h4 <;> rcases h5 with h5 | h5 <;> rw [h4, h5] <;> rfl

/-- C5: when every filter key is absent or empty, the queries return every
stored record of their kind (a permutation of the store), ordered by
`created_at` descending, with records sharing a `created_at` kept in
insertion order. -/
theorem C5_no_filters_return_all (f : PersonnelFilters) (g : SiteFilters)
    (pstore : List PersonnelRow) (sstore : List SiteRow)
    (hf1 : inactiveKey f.hard_hat) (hf2 : inactiveKey f.vtype)
    (hf3 : inactiveKey f.severity) (hf4 : inactiveKey f.keyword)
    (hg1 : inactiveKey g.building) (hg2 : inactiveKey g.floor)
    (hg3 : inactiveKey g.risk_level) (hg4 : inactiveKey g.company_contains)
    (hg5 : inactiveKey g.keyword) :
    (List.Perm (fetch_personnel f pstore) pstore ∧
     List.Sorted (fun a b : PersonnelRow => b.created_at ≤ a.created_at)
       (fetch_personnel f pstore) ∧
     ∀ k, (fetch_personnel f pstore).filter (fun r => decide (r.created_at = k)) =
       pstore.filter (fun r => decide (r.created_at = k))) ∧
    (List.Perm (fetch_site g sstore) sstore ∧
     List.Sorted (fun a b : SiteRow => b.created_at ≤ a.created_at)
       (fetch_site g sstore) ∧
     ∀ k, (fetch_site g sstore).filter (fun r => decide (r.created_at = k)) =
       sstore.filter (fun r => decide (r.created_at = k))) := by
  have hp : pstore.filter (matchesPersonnel f) = pstore :=
    List.filter_eq_self.mpr (fun r _ => matchesPersonnel_of_inactive hf1 hf2 hf3 hf4 r)
  have hs : sstore.filter (matchesSite g) = sstore :=
    List.filter_eq_self.mpr (fun r _ => matchesSite_of_inactive hg1 hg2 hg3 hg4 hg5 r)
  refine ⟨⟨?_, ?_, ?_⟩, ⟨?_, ?_, ?_⟩⟩
  · rw [fetch_personnel, hp]; exact sortDesc_perm _ _
  · rw [fetch_personnel, hp]; exact sortDesc_sorted _ _
  · intro k
    rw [fetch_personnel, hp]
    exact sortDesc_filter_key (fun r => r.created_at)
      (fun r => decide (r.created_at = k)) k (fun x => by simp) pstore
  · rw [fetch_site, hs]; exact sortDesc_perm _ _
  · rw [fetch_site, hs]; exact sortDesc_sorted _ _
  · intro k
    rw [fetch_site, hs]
    exact sortDesc_filter_key (fun r => r.created_at)
      (fun r => decide (r.created_at = k)) k (fun x => by simp) sstore

/-- Closed instance of C5: a filter object with every key absent, applied
to the two sample stores (which tie on `created_at`). -/
theorem C5_no_filters_return_all_witness :
    List.Perm (fetch_personnel
      { hard_hat := none, vtype := none, severity := none, keyword := none }
      demoPStore) demoPStore ∧
    List.Perm (fetch_site
      { building := none, floor := none, risk_level := none,
        company_contains := none, keyword := none } demoSStore) demoSStore := by
  have h := C5_no_filters_return_all
    { hard_hat := none, vtype := none, severity := none, keyword := none }
    { building := none, floor := none, risk_level := none,
      company_contains := none, keyword := none }
    demoPStore demoSStore
    (Or.inl rfl) (Or.inl rfl) (Or.inl rfl) (Or.inl rfl)
    (Or.inl rfl) (Or.inl rfl) (Or.inl rfl) (Or.inl rfl) (Or.inl rfl)
  exact ⟨h.1.1, h.2.1⟩

theorem subRuns_mem {l : List Char} :
    ∀ {b : Bool} {c : Char}, c ∈ subRuns b l → isFileChar c = true ∨ c = '_' := by
  induction l with
  | nil => intro b c h; cases h
  | cons d t ih =>
    intro b c h
    unfold subRuns at h
    by_cases hd : isFileChar d
    · rw [if_pos hd] at h
      rcases List.mem_cons.mp h with h | h
      · exact Or.inl (h ▸ hd)
      · exact ih h
    · rw [if_neg hd] at h
      cases b with
      | true => exact ih (by simpa using h)
      | false =>
        rcases List.mem_cons.mp (by simpa using h) with h | h
        · exact Or.inr h
        · exact ih h

theorem slash_not_mem_safe_filename (name : List Char) : '/' ∉ safe_filename name := by
  intro h
  rcases subRuns_mem h with h | h
  · exact absurd h (by decide)
  · exact absurd h (by decide)

theorem slash_not_mem_revtail (ts u n : List Char) (hts : '/' ∉ ts) (hu : '/' ∉ u) :
    '/' ∉ (safe_filename n).reverse ++ '_' :: u.reverse ++ '_' :: ts.reverse := by
  intro h
  rcases List.mem_append.mp h with h | h
  · rcases List.mem_append.mp h with h | h
    · exact slash_not_mem_safe_filename n (List.mem_reverse.mp h)
    · rcases List.mem_cons.mp h with h | h
      · exact absurd h (by decide)
      · exact hu (List.mem_reverse.mp h)
  · rcases List.mem_cons.mp h with h | h
    · exact absurd h (by decide)
    · exact hts (List.mem_reverse.mp h)

theorem upload_name_reverse (folder ts u n : List Char) :
    (upload_name folder ts u n).reverse =
      ((safe_filename n).reverse ++ '_' :: u.reverse ++ '_' :: ts.reverse) ++
        '/' :: folder.reverse := by
  simp [upload_name]

theorem revtail_reverse (ts u n : List Char) :
    ((safe_filename n).reverse ++ '_' :: u.reverse ++ '_' :: ts.reverse).reverse =
      ts ++ '_' :: (u ++ '_' :: safe_filename n) := by
  simp

theorem append_cons_inj {α : Type} {c : α} :
    ∀ {l₁ l₂ r₁ r₂ : List α}, c ∉ l₁ → c ∉ l₂ → l₁ ++ c :: r₁ = l₂ ++ c :: r₂ →
      l₁ = l₂ ∧ r₁ = r₂ := by
  intro l₁
  induction l₁ with
  | nil =>
    intro l₂ r₁ r₂ h₁ h₂ h
    cases l₂ with
    | nil => simpa using h
    | cons b t =>
      rw [List.nil_append, List.cons_append, List.cons.injEq] at h
      exact absurd (h.1 ▸ List.mem_cons_self b t) h₂
  | cons a s ih =>
    intro l₂ r₁ r₂ h₁ h₂ h
    cases l₂ with
    | nil =>
      rw [List.cons_append, List.nil_append, List.cons.injEq] at h
      exact absurd (h.1 ▸ List.mem_cons_self a s) (h.1 ▸ h₁)
    | cons b t =>
      rw [List.cons_append, List.cons_append, List.cons.injEq] at h
      have hrec := ih (fun hm => h₁ (List.mem_cons_of_mem a hm))
        (fun hm => h₂ (List.mem_cons_of_mem b hm)) h.2
      exact ⟨by rw [h.1, hrec.1], hrec.2⟩

theorem subRuns_all_good {s : List Char} (hgood : ∀ c ∈ s, isFileChar c = true) :
    ∀ b : Bool, subRuns b s = s := by
  induction s with
  | nil => intro b; rfl
  | cons c t ih =>
    intro b
    have hc : isFileChar c = true := hgood c (List.mem_cons_self c t)
    unfold subRuns
    rw [if_pos hc, ih (fun d hd => hgood d (List.mem_cons_of_mem c hd))]

theorem subRuns_cons (b : Bool) (c : Char) (t : List Char) :
    subRuns b (c :: t) =
      if isFileChar c then c :: subRuns false t
      else if b then subRuns true t else '_' :: subRuns true t := rfl

theorem subRuns_append_dot (e : List Char) :
    ∀ (l : List Char) (b : Bool),
      ∃ pre, subRuns b (l ++ '.' :: e) = pre ++ '.' :: subRuns false e := by
  intro l
  induction l with
  | nil =>
    intro b
    refine ⟨[], ?_⟩
    rw [List.nil_append, List.nil_append, subRuns_cons, if_pos (by decide)]
  | cons c t ih =>
    intro b
    rw [List.cons_append, subRuns_cons]
    by_cases hc : isFileChar c
    · obtain ⟨pre, hpre⟩ := ih false
      rw [if_pos hc, hpre]
      exact ⟨c :: pre, by rw [List.cons_append]⟩
    · rw [if_neg hc]
      cases b with
      | true =>
        rw [if_pos rfl]
        exact ih true
      | false =>
        obtain ⟨pre, hpre⟩ := ih true
        rw [if_neg (by decide), hpre]
        exact ⟨'_' :: pre, by rw [List.cons_append]⟩

theorem safe_filename_ext (stem ext : List Char) :
    ∃ pre, safe_filename (stem ++ '.' :: ext) = pre ++ '.' :: subRuns false ext := by
  have hne : stem ++ '.' :: ext ≠ [] := by
    intro hnil
    exact absurd (List.append_eq_nil.mp hnil).2 (by simp)
  obtain ⟨pre, hpre⟩ := subRuns_append_dot ext stem false
  exact ⟨pre, by rw [safe_filename, if_neg hne, hpre]⟩

/-- C7, counterexample to the claim as stated, at concrete inputs. First,
the `bin` default does not exist: uploading the extensionless file `photo`
on the configured branch yields a pointer that contains no dot at all, so
no `.bin` was appended. Second, pointers are not unique per call: on the
local fallback branch two calls in the same second with the same file name
`photo.jpg` return the very same pointer even though their fresh uuid
hexes differ — the random component is discarded there. Third, the
original extension is only preserved up to sanitization: a name with the
extension `j g` yields a pointer ending in `.j_g`, not `.j g`. -/
theorem C7_original_claim_counterexample :
    (upload_evidence true ['t', 'm', 'p'] (peopleFolder ++ ['1', '1', '7'])
      (now_ts 2025 1 2 3 4 5) (List.replicate 32 'a') ['p', 'h', 'o', 't', 'o']).all
        (fun c => decide (c ≠ '.')) = true ∧
    (['.', 'b', 'i', 'n'].isSuffixOf
      (upload_evidence true ['t', 'm', 'p'] (peopleFolder ++ ['1', '1', '7'])
        (now_ts 2025 1 2 3 4 5) (List.replicate 32 'a') ['p', 'h', 'o', 't', 'o'])) =
      false ∧
    (List.replicate 32 'a' ≠ List.replicate 32 'b') ∧
    upload_evidence false ['t', 'm', 'p'] (peopleFolder ++ ['1', '1', '7'])
      (now_ts 2025 1 2 3 4 5) (List.replicate 32 'a')
      ['p', 'h', 'o', 't', 'o', '.', 'j', 'p', 'g'] =
    upload_evidence false ['t', 'm', 'p'] siteFolder
      (now_ts 2025 1 2 3 4 5) (List.replicate 32 'b')
      ['p', 'h', 'o', 't', 'o', '.', 'j', 'p', 'g'] ∧
    (['.', 'j', ' ', 'g'].isSuffixOf
      (upload_evidence true ['t', 'm', 'p'] (peopleFolder ++ ['1', '1', '7'])
        (now_ts 2025 1 2 3 4 5) (List.replicate 32 'a') ['a', '.', 'j', ' ', 'g'])) =
      false ∧
    (['.', 'j', '_', 'g'].isSuffixOf
      (upload_evidence true ['t', 'm', 'p'] (peopleFolder ++ ['1', '1', '7'])
        (now_ts 2025 1 2 3 4 5) (List.replicate 32 'a') ['a', '.', 'j', ' ', 'g'])) =
      true := by
  refine ⟨by decide, by decide, by decide, by decide, by decide, by decide⟩

/-- C7 (amended): on the configured branch the pointer is
`folder/marker_random_sanitizedName` — it embeds the normalized time
marker and the fresh random component, and two calls whose fresh random
components differ (equal-length slash-free uuid hexes, with equal-length
slash-free time markers) always return distinct pointers, whatever their
folders and file names. On the local fallback branch the pointer is
`localdir/marker_sanitizedName`: the random component and the folder are
discarded, so two same-second calls with equal file names return the same
pointer — per-call uniqueness holds only on the configured branch. On
either branch the pointer ends with the sanitized original file name and
preserves the file's extension up to the same per-character sanitization
(hence verbatim whenever the extension consists of kept characters); a
file with no extension gets no extension appended. -/
theorem C7_pointer_semantics_amended (localUploads : List Char)
    (folder₁ ts₁ u₁ n₁ folder₂ ts₂ u₂ n₂ : List Char)
    (hts₁ : '/' ∉ ts₁) (hts₂ : '/' ∉ ts₂) (htslen : ts₁.length = ts₂.length)
    (hu₁ : '/' ∉ u₁) (hu₂ : '/' ∉ u₂) (hulen : u₁.length = u₂.length)
    (hne : u₁ ≠ u₂) :
    upload_evidence true localUploads folder₁ ts₁ u₁ n₁ ≠
      upload_evidence true localUploads folder₂ ts₂ u₂ n₂ ∧
    (∃ p q, upload_evidence true localUploads folder₁ ts₁ u₁ n₁ = p ++ ts₁ ++ q) ∧
    (∃ p q, upload_evidence true localUploads folder₁ ts₁ u₁ n₁ = p ++ u₁ ++ q) ∧
    upload_evidence false localUploads folder₁ ts₁ u₁ n₁ =
      upload_evidence false localUploads folder₂ ts₁ u₂ n₁ ∧
    (∀ e : Bool, ∃ p,
      upload_evidence e localUploads folder₁ ts₁ u₁ n₁ = p ++ safe_filename n₁) ∧
    (∀ (e : Bool) (stem ext : List Char), n₁ = stem ++ '.' :: ext →
      (∃ p, upload_evidence e localUploads folder₁ ts₁ u₁ n₁ =
        p ++ '.' :: subRuns false ext) ∧
      ((∀ c ∈ ext, isFileChar c = true) →
        ∃ p, upload_evidence e localUploads folder₁ ts₁ u₁ n₁ = p ++ '.' :: ext)) := by
  have hred : ∀ f ts u n, upload_evidence true localUploads f ts u n =
      upload_name f ts u n := fun _ _ _ _ => rfl
  have hsuffix : ∀ e : Bool, ∃ p,
      upload_evidence e localUploads folder₁ ts₁ u₁ n₁ = p ++ safe_filename n₁ := by
    intro e
    cases e with
    | true =>
      exact ⟨folder₁ ++ '/' :: ts₁ ++ '_' :: u₁ ++ ['_'], by
        rw [hred]; simp [upload_name]⟩
    | false =>
      exact ⟨localUploads ++ '/' :: ts₁ ++ ['_'], by simp [upload_evidence]⟩
  refine ⟨?_, ?_, ?_, rfl, hsuffix, ?_⟩
  · intro h
    rw [hred, hred] at h
    have h' := congrArg List.reverse h
    rw [upload_name_reverse, upload_name_reverse] at h'
    have hsplit := append_cons_inj
      (slash_not_mem_revtail ts₁ u₁ n₁ hts₁ hu₁)
      (slash_not_mem_revtail ts₂ u₂ n₂ hts₂ hu₂) h'
    have htail := congrArg List.reverse hsplit.1
    rw [revtail_reverse, revtail_reverse] at htail
    have hts := List.append_inj htail htslen
    have hcons : u₁ ++ '_' :: safe_filename n₁ = u₂ ++ '_' :: safe_filename n₂ :=
      (List.cons_injective hts.2 : _)
    have hu := List.append_inj hcons hulen
    exact hne hu.1
  · exact ⟨folder₁ ++ ['/'], '_' :: (u₁ ++ '_' :: safe_filename n₁), by
      rw [hred]; simp [upload_name]⟩
  · exact ⟨folder₁ ++ '/' :: ts₁ ++ ['_'], '_' :: safe_filename n₁, by
      rw [hred]; simp [upload_name]⟩
  · intro e stem ext hn
    obtain ⟨p, hp⟩ := hsuffix e
    obtain ⟨pre, hpre⟩ := safe_filename_ext stem ext
    constructor
    · refine ⟨p ++ pre, ?_⟩
      rw [hp, hn, hpre, List.append_assoc]
    · intro hkept
      refine ⟨p ++ pre, ?_⟩
      rw [hp, hn, hpre, subRuns_all_good hkept, List.append_assoc]

/-- Closed instance of C7 (amended): on the configured branch, two uploads
in the same folder at the same timestamp with different fresh uuid hexes
get distinct pointers. -/
theorem C7_pointer_semantics_amended_witness :
    upload_evidence true ['t', 'm', 'p'] (peopleFolder ++ ['1', '1', '7'])
      (now_ts 2025 1 2 3 4 5) (List.replicate 32 'a') ['a', '.', 'j', 'p', 'g'] ≠
    upload_evidence true ['t', 'm', 'p'] (peopleFolder ++ ['1', '1', '7'])
      (now_ts 2025 1 2 3 4 5) (List.replicate 32 'b') ['b'] :=
  (C7_pointer_semantics_amended ['t', 'm', 'p'] _ _ _ _ _ _ _ _
    (by decide) (by decide) (by decide)
    (by decide) (by decide) (by decide) (by decide)).1

theorem clean_token_nil_of_pyStrip_nil {l : List Char} (h : pyStrip l = []) :
    clean_token l = [] := by
  unfold clean_token
  rw [h]
  rfl

/-- C8: a submission whose required fields include one that is empty after
trimming fails — the save handler produces no row to persist — and every
validation error it can produce names a field that really is missing
(hard-hat: empty after normalization, which trimming-empty implies; the
others: empty after trimming). -/
theorem C8_required_field_validation (now ts u : List Char)
    (f : PersonnelForm) (g : SiteForm) :
    ((pyStrip f.hh_raw = [] ∨ pyStrip f.description = []) →
      ∀ row, savePersonnel now ts u f ≠ Except.ok row) ∧
    (∀ e, savePersonnel now ts u f = Except.error e → personnelMissing f e) ∧
    ((pyStrip g.company = [] ∨ pyStrip g.building = [] ∨ pyStrip g.floor = [] ∨
        pyStrip g.issue = []) →
      ∀ row, saveSite now ts u g ≠ Except.ok row) ∧
    (∀ e, saveSite now ts u g = Except.error e → siteMissing g e) := by
  refine ⟨?_, ?_, ?_, ?_⟩
  · intro h row hok
    unfold savePersonnel at hok
    by_cases c1 : clean_token f.hh_raw = []
    · simp [c1] at hok
    · rcases h with h | h
      · exact c1 (clean_token_nil_of_pyStrip_nil h)
      · simp [c1, h] at hok
  · intro e he
    unfold savePersonnel at he
    by_cases c1 : clean_token f.hh_raw = []
    · simp [c1] at he
      rw [← he]
      exact c1
    · by_cases c2 : pyStrip f.description = []
      · simp [c1, c2] at he
        rw [← he]
        exact c2
      · simp [c1, c2] at he
  · intro h row hok
    unfold saveSite at hok
    by_cases c1 : pyStrip g.company = []
    · simp [c1] at hok
    · by_cases c2 : pyStrip g.building = []
      · simp [c1, c2] at hok
      · by_cases c3 : pyStrip g.floor = []
        · simp [c1, c2, c3] at hok
        · by_cases c4 : pyStrip g.issue = []
          · simp [c1, c2, c3, c4] at hok
          · rcases h with h | h | h | h
            · exact c1 h
            · exact c2 h
            · exact c3 h
            · exact c4 h
  · intro e he
    unfold saveSite at he
    by_cases c1 : pyStrip g.company = []
    · simp [c1] at he
      rw [← he]
      exact c1
    · by_cases c2 : pyStrip g.building = []
      · simp [c1, c2] at he
        rw [← he]
        exact c2
      · by_cases c3 : pyStrip g.floor = []
        · simp [c1, c2, c3] at he
          rw [← he]
          exact c3
        · by_cases c4 : pyStrip g.issue = []
          · simp [c1, c2, c3, c4] at he
            rw [← he]
            exact c4
          · simp [c1, c2, c3, c4] at he

/-- Closed instance of C8: all-empty submissions of both kinds are rejected
with the first missing field named, and no row is produced. -/
theorem C8_required_field_validation_witness :
    savePersonnel [] [] [] demoEmptyPersonnelForm ≠ Except.ok demoRowA ∧
    personnelMissing demoEmptyPersonnelForm PersonnelError.hardHatRequired ∧
    saveSite [] [] [] demoEmptySiteForm ≠ Except.ok demoSiteRow ∧
    siteMissing demoEmptySiteForm SiteError.companyRequired := by
  have h := C8_required_field_validation [] [] [] demoEmptyPersonnelForm demoEmptySiteForm
  exact ⟨h.1 (Or.inl rfl) demoRowA,
    h.2.1 PersonnelError.hardHatRequired rfl,
    h.2.2.1 (Or.inl rfl) demoSiteRow,
    h.2.2.2 SiteError.companyRequired rfl⟩

theorem persistedOpt_optText (s : List Char) : persistedOpt s (optText s) := by
  constructor
  · intro h
    simp [optText, h]
  · intro h
    simp [optText, h]

/-- C10: every row an accepted submission persists stores each optional
free-text field as `None` when it trims to empty and as the trimmed text
otherwise (never the empty string), stores the required text fields
trimmed, and stores no evidence/photo pointer when no file was
attached. -/
theorem C10_blank_optionals_persisted_null (now ts u : List Char)
    (f : PersonnelForm) (g : SiteForm) :
    (∀ row, savePersonnel now ts u f = Except.ok row →
      persistedOpt f.company row.company ∧
      persistedOpt f.trade row.trade ∧
      persistedOpt f.location row.location ∧
      persistedOpt f.corrective_action row.corrective_action ∧
      row.description = some (pyStrip f.description) ∧
      (f.evidence = none → row.evidence_path = none)) ∧
    (∀ row, saveSite now ts u g = Except.ok row →
      row.company = some (pyStrip g.company) ∧
      row.building = some (pyStrip g.building) ∧
      row.floor = some (pyStrip g.floor) ∧
      row.issue = some (pyStrip g.issue) ∧
      (g.photo = none → row.photo_path = none)) := by
  constructor
  · intro row h
    unfold savePersonnel at h
    by_cases c1 : clean_token f.hh_raw = []
    · simp [c1] at h
    · by_cases c2 : pyStrip f.description = []
      · simp [c1, c2] at h
      · simp only [c1, c2, if_neg, if_false, Except.ok.injEq] at h
        rw [← h]
        refine ⟨persistedOpt_optText _, persistedOpt_optText _, persistedOpt_optText _,
          persistedOpt_optText _, rfl, ?_⟩
        intro he
        simp [he]
  · intro row h
    unfold saveSite at h
    by_cases c1 : pyStrip g.company = []
    · simp [c1] at h
    · by_cases c2 : pyStrip g.building = []
      · simp [c1, c2] at h
      · by_cases c3 : pyStrip g.floor = []
        · simp [c1, c2, c3] at h
        · by_cases c4 : pyStrip g.issue = []
          · simp [c1, c2, c3, c4] at h
          · simp only [c1, c2, c3, c4, if_neg, if_false, Except.ok.injEq] at h
            rw [← h]
            refine ⟨rfl, rfl, rfl, rfl, ?_⟩
            intro hp
            simp [hp]

/-- Closed instance of C10: the sample valid submissions persist a blank
optional company as `None`, a non-blank trade trimmed, and the required
fields trimmed. -/
theorem C10_blank_optionals_persisted_null_witness :
    persistedOpt demoPersonnelForm.company demoSavedPRow.company ∧
    persistedOpt demoPersonnelForm.trade demoSavedPRow.trade ∧
    demoSavedPRow.description = some (pyStrip demoPersonnelForm.description) ∧
    demoSavedSRow.company = some (pyStrip demoSiteForm.company) := by
  have h := C10_blank_optionals_persisted_null [] [] [] demoPersonnelForm demoSiteForm
  have h1 := h.1 demoSavedPRow rfl
  have h2 := h.2 demoSavedSRow rfl
  exact ⟨h1.1, h1.2.1, h1.2.2.2.2.1, h2.1⟩

end SafetyHub

